import Mathlib

/-!
Shallow embedding of the longitudinal response aggregation engine of the
RECIST dashboard (`src/recist-dashboard/src/App.tsx`): the functions
`groupByPatient` (patient series with baseline/nadir deltas) and
`buildLesionMatrix` (lesion-identity rows), together with the record types
they operate on.

Modelling conventions:
* JavaScript numbers are rationals (`ℚ`); nullable fields are `Option`s.
* `Array.prototype.sort` (stable since ECMAScript 2019) is modelled by
  `List.insertionSort`, which is also stable, with the relation
  "comparator result ≤ 0"; `localeCompare` on the ISO date / identifier
  strings is the lexicographic order on `String`.
* The insertion-ordered JavaScript `Map` is an association list to which new
  keys are appended; the date-keyed plain objects `sizesByDate` / `sldByDate`
  are modelled by their lookup functions, a never-assigned date and a date
  assigned `null` both being `none` (downstream code only tests `!= null`,
  which cannot tell the two apart).
-/

namespace Tumor

/-- Kernel-reducible decidability for the lexicographic `String` order,
so that concrete runs of the engine can be evaluated by `decide`. -/
instance (priority := 2000) decidableStrLT (a b : String) : Decidable (a < b) :=
  decidable_of_iff (a.toList < b.toList) String.lt_iff_toList_lt.symm

/-- Kernel-reducible decidability for `≤` on `String`. -/
instance (priority := 2000) decidableStrLE (a b : String) : Decidable (a ≤ b) :=
  decidable_of_iff (¬ b.toList < a.toList)
    (by rw [← String.lt_iff_toList_lt]; exact not_lt)

/-- RECIST summary block of one measurement record (the `recist` sub-object of
the source's `RecistMeta`). -/
structure RecistData where
  baseline_sld_mm : Option ℚ
  current_sld_mm : Option ℚ
  nadir_sld_mm : Option ℚ
  overall_response : String
deriving DecidableEq

/-- Per-lesion observation.  Only the fields the engine reads are modelled.
`target?: boolean` becomes a `Bool` (JavaScript `undefined` and `false` behave
identically under `!!` and `if`); `lesion_id` becomes `Option String` because
the source guards it with `||`, under which an absent id and the empty string
both fall through to the fallback key. -/
structure Lesion where
  lesion_id : Option String
  kind : String
  organ : String
  location : Option String
  station : Option String
  rule : String
  baseline_mm : Option ℚ
  follow_mm : Option ℚ
  size_mm_current : Option ℚ
  target : Bool
deriving DecidableEq

/-- One raw measurement record (one JSONL line after parsing). -/
structure RecistMeta where
  patient_id : String
  timepoint : ℕ
  study_date : String
  recist : RecistData
  lesions : Option (List Lesion)
deriving DecidableEq

/-- Enriched timepoint row of a `PatientSeries`: the original record spread
together with the three derived values (lines 90-98 of the source). -/
structure SeriesRow extends RecistMeta where
  sld_mm : ℚ
  pct_from_baseline : Option ℚ
  pct_from_nadir : Option ℚ
deriving DecidableEq

structure PatientSeries where
  patientId : String
  rows : List SeriesRow
deriving DecidableEq

/-- Aggregate value of one record (lines 91-93):
`timepoint === 0 ? baseline ?? 0 : current ?? baseline ?? 0`. -/
def sldOf (r : RecistMeta) : ℚ :=
  if r.timepoint = 0 then r.recist.baseline_sld_mm.getD 0
  else ((r.recist.current_sld_mm).or r.recist.baseline_sld_mm).getD 0

/-- One step of the nadir fold (line 94): a null nadir adopts the value,
otherwise the minimum is kept.  The result is always a number. -/
def nadirStep (nadir : Option ℚ) (sld : ℚ) : ℚ :=
  match nadir with
  | none => sld
  | some n => min n sld

/-- Successive values of the mutable `nadir` variable (lines 89 and 94), one
per timepoint, after the update at that timepoint. -/
def nadirSeq (nadir : Option ℚ) : List RecistMeta → List ℚ
  | [] => []
  | r :: rest =>
    let n := nadirStep nadir (sldOf r)
    n :: nadirSeq (some n) rest

/-- Percent from baseline (line 95): the guard is JavaScript truthiness of
`baselineSLD`, so only `null` and `0` yield `null`. -/
def pctFromBaseline (baselineSLD : Option ℚ) (sld : ℚ) : Option ℚ :=
  match baselineSLD with
  | none => none
  | some b => if b = 0 then none else some ((sld - b) / b * 100)

/-- Percent from nadir (line 96): the guard is `nadir && nadir > 0` on the
just-updated (hence non-null) nadir, i.e. the nadir must be positive. -/
def pctFromNadir (nadir sld : ℚ) : Option ℚ :=
  if 0 < nadir then some ((sld - nadir) / nadir * 100) else none

/-- The `arr.map` body of `groupByPatient` (lines 90-98), with the mutable
`nadir` threaded explicitly. -/
def enrichRows (baselineSLD : Option ℚ) : Option ℚ → List RecistMeta → List SeriesRow
  | _, [] => []
  | nadir, r :: rest =>
    let sld := sldOf r
    let n := nadirStep nadir sld
    ⟨r, sld, pctFromBaseline baselineSLD sld, pctFromNadir n sld⟩ ::
      enrichRows baselineSLD (some n) rest

/-- Baseline SLD of a date-sorted group (lines 87-88): the `baseline_sld_mm`
of the record with `timepoint === 0`, falling back to the chronologically
first record, and `null` for an empty group. -/
def baselineSLDOf (arr : List RecistMeta) : Option ℚ :=
  ((arr.find? (fun r => decide (r.timepoint = 0))).or arr.head?).bind
    (fun b => b.recist.baseline_sld_mm)

/-- Comparator relation of line 86 (`a.study_date.localeCompare(b.study_date)`
being `≤ 0`). -/
def dateLE (a b : RecistMeta) : Prop := a.study_date ≤ b.study_date

instance : DecidableRel dateLE :=
  fun a b => inferInstanceAs (Decidable (a.study_date ≤ b.study_date))

/-- Strict date order, used to state when a group's sort is unambiguous. -/
def dateLT (a b : RecistMeta) : Prop := a.study_date < b.study_date

instance : DecidableRel dateLT :=
  fun a b => inferInstanceAs (Decidable (a.study_date < b.study_date))

instance : IsTotal RecistMeta dateLE := ⟨fun a b => le_total a.study_date b.study_date⟩

instance : IsTrans RecistMeta dateLE := ⟨fun _ _ _ h1 h2 => le_trans h1 h2⟩

instance : IsAntisymm RecistMeta dateLT := ⟨fun _ _ h1 h2 => absurd h2 (lt_asymm h1)⟩

/-- Series built for one patient from that patient's bucket of records, in
input order: sort by date, resolve the baseline, seed the nadir with the
baseline SLD (`let nadir = baselineSLD ?? null`), then enrich (lines 85-99). -/
def seriesFor (pid : String) (bucket : List RecistMeta) : PatientSeries :=
  let arr := List.insertionSort dateLE bucket
  let baselineSLD := baselineSLDOf arr
  ⟨pid, enrichRows baselineSLD baselineSLD arr⟩

/-- Patient identifiers in first-seen order: the key insertion order of the
`Map` built in lines 78-83. -/
def patientKeys (rows : List RecistMeta) : List String :=
  rows.foldl (fun acc r => if r.patient_id ∈ acc then acc else acc ++ [r.patient_id]) []

/-- Comparator relation of line 101 (`a.patientId.localeCompare(b.patientId)`
being `≤ 0`). -/
def pidLE (a b : PatientSeries) : Prop := a.patientId ≤ b.patientId

instance : DecidableRel pidLE :=
  fun a b => inferInstanceAs (Decidable (a.patientId ≤ b.patientId))

instance : IsTotal PatientSeries pidLE := ⟨fun a b => le_total a.patientId b.patientId⟩

instance : IsTrans PatientSeries pidLE := ⟨fun _ _ _ h1 h2 => le_trans h1 h2⟩

/-- The function `groupByPatient` (lines 77-103).  The `Map` bucket of a
patient holds exactly that patient's records in input order, i.e.
`rows.filter` on the patient identifier, and the buckets are visited in key
insertion order; the final `series.sort` is the stable sort by identifier. -/
def groupByPatient (rows : List RecistMeta) : List PatientSeries :=
  List.insertionSort pidLE
    ((patientKeys rows).map
      (fun pid => seriesFor pid (rows.filter (fun r => decide (r.patient_id = pid)))))

/-- Station-or-location component of the fallback key
(`lsn.station || lsn.location || ''`, with JavaScript falsiness of `""`). -/
def stationOrLocation (lsn : Lesion) : String :=
  match lsn.station with
  | some s => if s = "" then lsn.location.getD "" else s
  | none => lsn.location.getD ""

/-- Synthesised fallback identity key of line 152:
`` `${lsn.kind}:${lsn.organ}:${lsn.station || lsn.location || ''}` ``. -/
def fallbackKey (lsn : Lesion) : String :=
  lsn.kind ++ ":" ++ lsn.organ ++ ":" ++ stationOrLocation lsn

/-- Identity key of a lesion observation (line 152):
`lsn.lesion_id || fallback`. -/
def lesionKey (lsn : Lesion) : String :=
  match lsn.lesion_id with
  | some s => if s = "" then fallbackKey lsn else s
  | none => fallbackKey lsn

/-- Stable lesion identity data of a row (`row.lesion` in the source),
registered at the first sighting (lines 156-165). -/
structure LesionInfo where
  id : String
  label : String
  organ : String
  rule : String
  target : Bool
deriving DecidableEq

/-- Row of the lesion matrix.  The two date-keyed objects are modelled by
their lookup functions. -/
structure LesionRow where
  lesion : LesionInfo
  sizesByDate : String → Option ℚ
  sldByDate : String → Option ℚ

/-- Fresh row registered at a lesion's first sighting (lines 153-165); the
label is `"L"` followed by the number of keys after this insertion. -/
def freshRow (id label : String) (lsn : Lesion) : LesionRow :=
  ⟨⟨id, label, lsn.organ, lsn.rule, lsn.target⟩, fun _ => none, fun _ => none⟩

/-- Value written into `sldByDate` for one observation (lines 169-173): the
baseline measurement at timepoint index 0, else the follow-up measurement,
when the target flag is set; explicit `null` otherwise. -/
def sldCell (tpIdx : ℕ) (lsn : Lesion) : Option ℚ :=
  if lsn.target then (if tpIdx = 0 then lsn.baseline_mm else lsn.follow_mm) else none

/-- Cell writes performed on the row found under the key (lines 167-174). -/
def updateRow (tpIdx : ℕ) (date : String) (lsn : Lesion) (row : LesionRow) : LesionRow :=
  { row with
    sizesByDate := fun d => if d = date then lsn.size_mm_current else row.sizesByDate d
    sldByDate := fun d => if d = date then sldCell tpIdx lsn else row.sldByDate d }

/-- Body of the inner `lesions.forEach` (lines 151-174): append the key with a
fresh row if unseen, then perform this observation's cell writes on the row
under the key. -/
def processLesion (tpIdx : ℕ) (date : String) (m : List (String × LesionRow))
    (lsn : Lesion) : List (String × LesionRow) :=
  (if (m.find? (fun kv => decide (kv.1 = lesionKey lsn))).isSome then m
   else m ++ [(lesionKey lsn, freshRow (lesionKey lsn) ("L" ++ toString (m.length + 1)) lsn)]).map
    (fun kv => if kv.1 = lesionKey lsn then (kv.1, updateRow tpIdx date lsn kv.2) else kv)

/-- Comparator relation of lines 177-178
(`Number(b.target) - Number(a.target) || a.organ.localeCompare(b.organ)`
being `≤ 0`): target rows first, then ascending by organ. -/
def rowLE (a b : LesionRow) : Prop :=
  b.lesion.target < a.lesion.target ∨
    (a.lesion.target = b.lesion.target ∧ a.lesion.organ ≤ b.lesion.organ)

instance : DecidableRel rowLE := fun a b =>
  inferInstanceAs (Decidable (b.lesion.target < a.lesion.target ∨
    (a.lesion.target = b.lesion.target ∧ a.lesion.organ ≤ b.lesion.organ)))

/-- The function `buildLesionMatrix` (lines 141-181) on a present series. -/
def buildLesionMatrix (selected : PatientSeries) : List String × List LesionRow :=
  let dates := selected.rows.map (fun r => r.study_date)
  let m := selected.rows.enum.foldl
    (fun acc p => (p.2.lesions.getD []).foldl (processLesion p.1 p.2.study_date) acc) []
  (dates, List.insertionSort rowLE (m.map Prod.snd))

/-- Flattened observation stream of a series: (timepoint index, study date,
lesion observation) triples in the order the nested `forEach` visits them. -/
def obsOf (s : PatientSeries) : List (ℕ × String × Lesion) :=
  s.rows.enum.flatMap
    (fun p => (p.2.lesions.getD []).map (fun l => (p.1, p.2.study_date, l)))

/-- One observation step on the row map. -/
def stepObs (m : List (String × LesionRow)) (o : ℕ × String × Lesion) :
    List (String × LesionRow) :=
  processLesion o.1 o.2.1 m o.2.2

/-- Lookup in the insertion-ordered row map. -/
def lookupRow (m : List (String × LesionRow)) (k : String) : Option LesionRow :=
  (m.find? (fun kv => decide (kv.1 = k))).map Prod.snd

/-- End-to-end pipeline for one patient: the bucket `groupByPatient` builds for
that identifier, turned into a series and then into the lesion matrix. -/
def matrixFor (pid : String) (rows : List RecistMeta) : List String × List LesionRow :=
  buildLesionMatrix (seriesFor pid (rows.filter (fun r => decide (r.patient_id = pid))))

/-! Concrete inputs used to run the engine on closed scenarios. -/

/-- RECIST block with every numeric field absent. -/
def noRecist : RecistData := ⟨none, none, none, "SD"⟩

/-- Record with a negative baseline SLD. -/
def negBaseRec : RecistMeta := ⟨"P1", 0, "2024-01-01", ⟨some (-50), none, none, "SD"⟩, none⟩

/-- Record with baseline SLD 5 at the baseline timepoint. -/
def posBaseRec : RecistMeta := ⟨"P1", 0, "2024-01-01", ⟨some 5, none, none, "SD"⟩, none⟩

/-- Bucket `groupByPatient` builds for patient `"P1"` from `[posBaseRec]`. -/
def posBaseBucket : List RecistMeta :=
  [posBaseRec].filter (fun r => decide (r.patient_id = "P1"))

/-- The date-sorted form of `posBaseBucket`. -/
def posBaseArr : List RecistMeta := List.insertionSort dateLE posBaseBucket

/-- The series the pipeline builds from `[posBaseRec]`. -/
def posBaseSeries : PatientSeries := seriesFor "P1" posBaseBucket

/-- The single enriched row of `posBaseSeries`, written in the exact shape the
fold produces. -/
def posBaseRow : SeriesRow :=
  ⟨posBaseRec, sldOf posBaseRec,
    pctFromBaseline (baselineSLDOf posBaseArr) (sldOf posBaseRec),
    pctFromNadir (nadirStep (baselineSLDOf posBaseArr) (sldOf posBaseRec)) (sldOf posBaseRec)⟩

/-- Record with every numeric field absent. -/
def allNoneRec : RecistMeta := ⟨"P1", 0, "2024-01-01", noRecist, none⟩

/-- The enriched row the pipeline derives from `allNoneRec`. -/
def allNoneRow : SeriesRow := ⟨allNoneRec, 0, none, none⟩

/-- The series the pipeline builds from `[allNoneRec]`. -/
def allNoneSeries : PatientSeries := ⟨"P1", [allNoneRow]⟩

/-- Scenario record: baseline timepoint, baseline SLD 50 mm. -/
def scnR0 : RecistMeta := ⟨"P1", 0, "2024-01-01", ⟨some 50, none, none, "SD"⟩, none⟩

/-- Scenario record: timepoint 1, current SLD 30 mm. -/
def scnR1 : RecistMeta := ⟨"P1", 1, "2024-02-01", ⟨none, some 30, none, "PR"⟩, none⟩

/-- Scenario record: timepoint 2, current SLD 45 mm. -/
def scnR2 : RecistMeta := ⟨"P1", 2, "2024-03-01", ⟨none, some 45, none, "SD"⟩, none⟩

/-- Non-target lesion with explicit identifier `"x"`. -/
def lesX : Lesion := ⟨some "x", "met", "liver", none, none, "longest", none, none, none, false⟩

/-- Non-target lesion with explicit identifier `"y"`. -/
def lesY : Lesion := ⟨some "y", "met", "liver", none, none, "longest", none, none, none, false⟩

/-- Target-flagged lesion with identifier `"x"` and a follow-up measurement. -/
def lesXtgt : Lesion :=
  ⟨some "x", "met", "liver", none, none, "longest", none, some 7, some 7, true⟩

/-- Target-flagged lesion with identifier `"x"` and no measurement at all. -/
def lesXmiss : Lesion := ⟨some "x", "met", "liver", none, none, "longest", none, none, none, true⟩

/-- Timepoint-0 record carrying `lesX`. -/
def flagR0 : RecistMeta := ⟨"P1", 0, "2024-01-01", noRecist, some [lesX]⟩

/-- Timepoint-1 record carrying `lesXtgt` (same lesion, flag now set). -/
def flagR1 : RecistMeta := ⟨"P1", 1, "2024-02-01", noRecist, some [lesXtgt]⟩

/-- Timepoint-0 record carrying `lesXmiss` (flag set, measurement absent). -/
def missR0 : RecistMeta := ⟨"P1", 0, "2024-01-01", noRecist, some [lesXmiss]⟩

/-- Identifier-less lesion with a `:` inside its organ string. -/
def colA : Lesion := ⟨none, "met", "a:b", none, some "c", "longest", none, none, none, false⟩

/-- Identifier-less lesion whose distinct fields concatenate to the same key
as `colA`. -/
def colB : Lesion := ⟨none, "met", "a", none, some "b:c", "longest", none, none, none, false⟩

/-- Record carrying `colA` at the first timepoint. -/
def colR0 : RecistMeta := ⟨"P1", 0, "2024-01-01", noRecist, some [colA]⟩

/-- Record carrying `colB` at the second timepoint. -/
def colR1 : RecistMeta := ⟨"P1", 1, "2024-02-01", noRecist, some [colB]⟩

/-- Lesion observation sharing identifier `"L-LIV-1"`, first shape. -/
def sameIdA : Lesion :=
  ⟨some "L-LIV-1", "met", "liver", none, none, "longest", none, none, none, true⟩

/-- Lesion observation sharing identifier `"L-LIV-1"`, entirely different
tag/site/station fields. -/
def sameIdB : Lesion :=
  ⟨some "L-LIV-1", "primary", "lung", some "loc", some "st", "short_axis", none, none, none, false⟩

/-- Identifier-less lesion, fixed fields, first copy. -/
def noIdA : Lesion := ⟨none, "ln", "mediastinum", some "loc", some "4R", "short_axis", none, none, none, false⟩

/-- Identifier-less lesion with the same tag, site and station as `noIdA`. -/
def noIdB : Lesion := ⟨some "", "ln", "mediastinum", some "other", some "4R", "short_axis", none, none, none, true⟩

/-- Same-date records used to permute equal-date input lines: carries `lesX`. -/
def dupA : RecistMeta := ⟨"P1", 0, "2024-01-01", noRecist, some [lesX]⟩

/-- Same-date records used to permute equal-date input lines: carries `lesY`. -/
def dupB : RecistMeta := ⟨"P1", 1, "2024-01-01", noRecist, some [lesY]⟩

/-- Distinct-date record carrying `lesX`. -/
def ordA : RecistMeta := ⟨"P1", 0, "2024-01-01", noRecist, some [lesX]⟩

/-- Distinct-date record carrying `lesY`. -/
def ordB : RecistMeta := ⟨"P1", 1, "2024-02-01", noRecist, some [lesY]⟩

/-! Supporting lemmas about the stable sort. -/

lemma filter_orderedInsert_pos {α : Type*} (r : α → α → Prop) [DecidableRel r] (p : α → Bool)
    (a : α) (l : List α) (hpa : p a = true) (h : ∀ b, p b = true → r a b) :
    (List.orderedInsert r a l).filter p = a :: l.filter p := by
  induction l with
  | nil => simp [List.orderedInsert, hpa]
  | cons b t ih =>
    by_cases hr : r a b
    · simp [List.orderedInsert, hr, List.filter_cons, hpa]
    · have hpb : p b = false := by
        cases hb : p b
        · rfl
        · exact absurd (h b hb) hr
      simp [List.orderedInsert, hr, List.filter_cons, hpb, ih]

lemma filter_orderedInsert_neg {α : Type*} (r : α → α → Prop) [DecidableRel r] (p : α → Bool)
    (a : α) (l : List α) (hpa : p a = false) :
    (List.orderedInsert r a l).filter p = l.filter p := by
  induction l with
  | nil => simp [List.orderedInsert, hpa]
  | cons b t ih =>
    by_cases hr : r a b
    · simp [List.orderedInsert, hr, List.filter_cons, hpa]
    · simp [List.orderedInsert, hr, List.filter_cons, ih]

/-- A stable sort leaves the subsequence of mutually related elements (for the
date sort: the records sharing one study date) untouched. -/
lemma filter_insertionSort {α : Type*} (r : α → α → Prop) [DecidableRel r] (p : α → Bool)
    (h : ∀ a b, p a = true → p b = true → r a b) (l : List α) :
    (List.insertionSort r l).filter p = l.filter p := by
  induction l with
  | nil => rfl
  | cons a t ih =>
    by_cases hpa : p a = true
    · rw [List.insertionSort,
        filter_orderedInsert_pos r p a _ hpa (fun b hb => h a b hpa hb), ih,
        List.filter_cons, if_pos hpa]
    · have hpa' : p a = false := by simpa using hpa
      rw [List.insertionSort, filter_orderedInsert_neg r p a _ hpa', ih,
        List.filter_cons, if_neg (by simp [hpa'])]

/-! Supporting lemmas about the enrichment fold. -/

lemma enrichRows_map_meta (b : Option ℚ) (nad : Option ℚ) (l : List RecistMeta) :
    (enrichRows b nad l).map (fun row => row.toRecistMeta) = l := by
  induction l generalizing nad with
  | nil => rfl
  | cons r rest ih => simp [enrichRows, ih]

/-- Every enriched row comes from a record of the group and has exactly the
shape the fold gives it, for some intermediate nadir value. -/
lemma mem_enrichRows (b nad : Option ℚ) (l : List RecistMeta) (row : SeriesRow)
    (h : row ∈ enrichRows b nad l) :
    ∃ r ∈ l, ∃ n : Option ℚ,
      row = ⟨r, sldOf r, pctFromBaseline b (sldOf r),
             pctFromNadir (nadirStep n (sldOf r)) (sldOf r)⟩ := by
  induction l generalizing nad with
  | nil => simp [enrichRows] at h
  | cons r rest ih =>
    simp only [enrichRows, List.mem_cons] at h
    rcases h with h | h
    · exact ⟨r, List.mem_cons_self r rest, nad, h⟩
    · obtain ⟨r', hr', n, hrow⟩ := ih _ h
      exact ⟨r', List.mem_cons_of_mem _ hr', n, hrow⟩

lemma seriesFor_patientId (pid : String) (bucket : List RecistMeta) :
    (seriesFor pid bucket).patientId = pid := rfl

lemma seriesFor_rows (pid : String) (bucket : List RecistMeta) :
    (seriesFor pid bucket).rows
      = enrichRows (baselineSLDOf (List.insertionSort dateLE bucket))
          (baselineSLDOf (List.insertionSort dateLE bucket))
          (List.insertionSort dateLE bucket) := rfl

lemma seriesFor_map_meta (pid : String) (bucket : List RecistMeta) :
    (seriesFor pid bucket).rows.map (fun row => row.toRecistMeta)
      = List.insertionSort dateLE bucket := by
  rw [seriesFor_rows, enrichRows_map_meta]

/-- The output series are exactly one `seriesFor` per first-seen patient key,
re-ordered by the final sort. -/
lemma mem_groupByPatient {rows : List RecistMeta} {s : PatientSeries} :
    s ∈ groupByPatient rows ↔
      ∃ pid ∈ patientKeys rows,
        s = seriesFor pid (rows.filter (fun r => decide (r.patient_id = pid))) := by
  unfold groupByPatient
  rw [(List.perm_insertionSort pidLE _).mem_iff, List.mem_map]
  constructor
  · rintro ⟨pid, hpid, rfl⟩
    exact ⟨pid, hpid, rfl⟩
  · rintro ⟨pid, hpid, rfl⟩
    exact ⟨pid, hpid, rfl⟩

lemma nadirStep_le (nad : Option ℚ) (sld : ℚ) : nadirStep nad sld ≤ sld := by
  cases nad with
  | none => exact le_refl _
  | some n => exact min_le_right n sld

lemma nadirSeq_chain (nad : Option ℚ) (l : List RecistMeta) :
    List.Chain' (fun x y => y ≤ x) (nadirSeq nad l) := by
  induction l generalizing nad with
  | nil => simp [nadirSeq]
  | cons r rest ih =>
    simp only [nadirSeq]
    rw [List.chain'_cons']
    refine ⟨?_, ih (some (nadirStep nad (sldOf r)))⟩
    intro y hy
    cases rest with
    | nil => simp [nadirSeq] at hy
    | cons r2 t =>
      simp only [nadirSeq, List.head?_cons, Option.mem_def, Option.some.injEq] at hy
      rw [← hy]
      exact min_le_left _ _

/-- C4: for every built patient series, the sequence of running nadir values
folded over its chronologically ordered timepoints is monotonically
non-increasing.  After the update at a timepoint the nadir is always a number
(`nadirSeq` is `ℚ`-valued), so "once non-null" holds at every timepoint; the
pairwise statement says the nadir at each timepoint is `≤` the nadir at every
earlier one. -/
theorem nadir_monotone (rows : List RecistMeta) :
    (groupByPatient rows).Forall (fun s =>
      (nadirSeq (baselineSLDOf (s.rows.map (fun row => row.toRecistMeta)))
          (s.rows.map (fun row => row.toRecistMeta))).Pairwise (fun x y => y ≤ x)) := by
  rw [List.forall_iff_forall_mem]
  intro s _
  haveI : IsTrans ℚ (fun x y : ℚ => y ≤ x) := ⟨fun _ _ _ h1 h2 => le_trans h2 h1⟩
  exact List.chain'_iff_pairwise.mp (nadirSeq_chain _ _)

/-- C10: in every built patient series, whenever the derived percent-from-nadir
is non-null it is `≥ 0` (stated via `getD 0`, which is `0` in the null case and
the value itself otherwise), because the running nadir already includes the
current timepoint's aggregate value and hence never exceeds it. -/
theorem pct_from_nadir_nonneg (rows : List RecistMeta) :
    (groupByPatient rows).Forall (fun s =>
      s.rows.Forall (fun row => 0 ≤ row.pct_from_nadir.getD 0)) := by
  rw [List.forall_iff_forall_mem]
  intro s hs
  rw [List.forall_iff_forall_mem]
  intro row hrow
  obtain ⟨pid, hpid, rfl⟩ := mem_groupByPatient.mp hs
  rw [seriesFor_rows] at hrow
  obtain ⟨r, hr, n, rfl⟩ := mem_enrichRows _ _ _ _ hrow
  show 0 ≤ (pctFromNadir (nadirStep n (sldOf r)) (sldOf r)).getD 0
  unfold pctFromNadir
  by_cases hpos : 0 < nadirStep n (sldOf r)
  · rw [if_pos hpos, Option.getD_some]
    have hle : nadirStep n (sldOf r) ≤ sldOf r := nadirStep_le _ _
    have hdiv : 0 ≤ (sldOf r - nadirStep n (sldOf r)) / nadirStep n (sldOf r) :=
      div_nonneg (sub_nonneg.mpr hle) hpos.le
    exact mul_nonneg hdiv (by norm_num)
  · rw [if_neg hpos]
    exact le_refl 0

/-- C5: in every built patient series, the derived aggregate value `sld_mm`
equals the record's baseline value when its timepoint is 0 and otherwise its
current value falling back to its baseline value, `0` standing in whenever the
consulted fields are all absent (`Option.getD 0`); `sld_mm : ℚ` is a number by
construction, never null. -/
theorem sld_mm_formula (rows : List RecistMeta) (s : PatientSeries)
    (hs : s ∈ groupByPatient rows) (row : SeriesRow) (hrow : row ∈ s.rows) :
    (row.timepoint = 0 → row.sld_mm = row.recist.baseline_sld_mm.getD 0) ∧
    (row.timepoint ≠ 0 →
      row.sld_mm = ((row.recist.current_sld_mm).or row.recist.baseline_sld_mm).getD 0) := by
  obtain ⟨pid, hpid, rfl⟩ := mem_groupByPatient.mp hs
  rw [seriesFor_rows] at hrow
  obtain ⟨r, hr, n, rfl⟩ := mem_enrichRows _ _ _ _ hrow
  constructor
  · intro h0
    show sldOf r = r.recist.baseline_sld_mm.getD 0
    have h0' : r.timepoint = 0 := h0
    simp [sldOf, h0']
  · intro h0
    show sldOf r = ((r.recist.current_sld_mm).or r.recist.baseline_sld_mm).getD 0
    have h0' : ¬ r.timepoint = 0 := h0
    simp [sldOf, h0']

/-- Witness for `sld_mm_formula`: the record with every numeric field absent
produces the one-row series `allNoneSeries`, and the theorem applied there
gives `sld_mm = baseline.getD 0` at the baseline timepoint. -/
theorem sld_mm_formula_witness :
    allNoneRow.sld_mm = allNoneRow.recist.baseline_sld_mm.getD 0 :=
  (sld_mm_formula [allNoneRec] allNoneSeries (by decide) allNoneRow (by decide)).1 (by decide)

/-- C1 counterexample: with a negative baseline SLD (`-50`), the derived
percent-from-baseline is non-null, while the claim says it should be null for
a negative baseline value (the source guards only on JavaScript truthiness,
which a negative number passes). -/
theorem pct_from_baseline_negative_ctrex :
    negBaseRec.recist.baseline_sld_mm = some (-50) ∧ ((-50 : ℚ) < 0) ∧
    (groupByPatient [negBaseRec]).map
        (fun s => s.rows.map (fun row => row.pct_from_baseline.isSome))
      = [[true]] :=
  ⟨rfl, by decide, by decide⟩

/-- C1 (amended): in every built patient series the derived
percent-from-baseline is null iff the series' baseline value is null or zero
(a negative baseline is truthy and is used as-is), and whenever the baseline
value is a non-zero number `q` the percent equals
`(sld_mm - q) / q * 100`. -/
theorem pct_from_baseline_spec (rows : List RecistMeta) (s : PatientSeries)
    (hs : s ∈ groupByPatient rows) (row : SeriesRow) (hrow : row ∈ s.rows) :
    (row.pct_from_baseline = none ↔
      baselineSLDOf (s.rows.map (fun x => x.toRecistMeta)) = none ∨
      baselineSLDOf (s.rows.map (fun x => x.toRecistMeta)) = some 0) ∧
    (∀ q : ℚ, baselineSLDOf (s.rows.map (fun x => x.toRecistMeta)) = some q → q ≠ 0 →
      row.pct_from_baseline = some ((row.sld_mm - q) / q * 100)) := by
  obtain ⟨pid, hpid, rfl⟩ := mem_groupByPatient.mp hs
  rw [seriesFor_map_meta]
  rw [seriesFor_rows] at hrow
  obtain ⟨r, hr, n, rfl⟩ := mem_enrichRows _ _ _ _ hrow
  constructor
  · show pctFromBaseline (baselineSLDOf (List.insertionSort dateLE _)) (sldOf r) = none ↔ _
    cases hb : baselineSLDOf (List.insertionSort dateLE
        (rows.filter (fun r => decide (r.patient_id = pid)))) with
    | none => simp [pctFromBaseline]
    | some q =>
      by_cases hq : q = 0 <;> simp [pctFromBaseline, hq]
  · intro q hq hq0
    show pctFromBaseline (baselineSLDOf (List.insertionSort dateLE _)) (sldOf r)
      = some ((sldOf r - q) / q * 100)
    rw [hq]
    simp [pctFromBaseline, hq0]

/-- Witness for `pct_from_baseline_spec`: on the single-record input with
baseline SLD 5 the theorem yields the explicit percent formula for the one
produced row. -/
theorem pct_from_baseline_spec_witness :
    posBaseRow.pct_from_baseline = some ((posBaseRow.sld_mm - 5) / 5 * 100) := by
  refine (pct_from_baseline_spec [posBaseRec] posBaseSeries ?_ posBaseRow ?_).2 5 (by decide)
    (by decide)
  · exact List.mem_singleton_self posBaseSeries
  · exact List.mem_singleton_self posBaseRow

/-- C6: on the concrete scenario (baseline SLD 50 at timepoint 0, current 30
at timepoint 1, current 45 at timepoint 2, dates ascending) the builder yields
percent-from-baseline −40 and −10, percent-from-nadir 0 and +50, and the
running nadir sequence 50, 30, 30 (nadir 30 at timepoints 1 and 2). -/
theorem scenario_timeline :
    ((groupByPatient [scnR0, scnR1, scnR2]).map
        (fun s => s.rows.map (fun r => (r.sld_mm, r.pct_from_baseline, r.pct_from_nadir)))
      = [[(50, some 0, some 0), (30, some (-40), some 0), (45, some (-10), some 50)]]) ∧
    nadirSeq (baselineSLDOf (List.insertionSort dateLE [scnR0, scnR1, scnR2]))
        (List.insertionSort dateLE [scnR0, scnR1, scnR2]) = [50, 30, 30] := by
  constructor
  · have hs : groupByPatient [scnR0, scnR1, scnR2]
        = [⟨"P1", enrichRows (some 50) (some 50) [scnR0, scnR1, scnR2]⟩] := by
      unfold groupByPatient
      rw [show patientKeys [scnR0, scnR1, scnR2] = ["P1"] from by decide]
      simp only [List.map_cons, List.map_nil]
      unfold seriesFor
      rw [show List.insertionSort dateLE
          ([scnR0, scnR1, scnR2].filter (fun r => decide (r.patient_id = "P1")))
          = [scnR0, scnR1, scnR2] from by decide]
      simp only []
      rw [show baselineSLDOf [scnR0, scnR1, scnR2] = some 50 from by decide]
      simp [List.insertionSort]
    rw [hs]
    simp only [enrichRows, sldOf, nadirStep, scnR0, scnR1, scnR2, List.map_cons, List.map_nil]
    norm_num [pctFromBaseline, pctFromNadir, min_def]
  · decide

/-! Supporting lemmas about the first-seen key list. -/

lemma patientKeys_loop_nodup (l : List RecistMeta) :
    ∀ acc : List String, acc.Nodup →
      (List.foldl (fun acc r => if r.patient_id ∈ acc then acc else acc ++ [r.patient_id])
        acc l).Nodup := by
  induction l with
  | nil => intro acc h; exact h
  | cons r t ih =>
    intro acc h
    rw [List.foldl_cons]
    by_cases hmem : r.patient_id ∈ acc
    · rw [if_pos hmem]; exact ih acc h
    · rw [if_neg hmem]
      refine ih _ ?_
      simp [List.nodup_append, h, hmem]

lemma patientKeys_nodup (rows : List RecistMeta) : (patientKeys rows).Nodup :=
  patientKeys_loop_nodup rows [] List.nodup_nil

lemma patientKeys_loop_mem (l : List RecistMeta) :
    ∀ (acc : List String) (x : String),
      x ∈ List.foldl (fun acc r => if r.patient_id ∈ acc then acc else acc ++ [r.patient_id])
          acc l
        ↔ x ∈ acc ∨ x ∈ l.map (fun r => r.patient_id) := by
  induction l with
  | nil => intro acc x; simp
  | cons r t ih =>
    intro acc x
    rw [List.foldl_cons]
    by_cases hmem : r.patient_id ∈ acc
    · rw [if_pos hmem, ih]
      simp only [List.map_cons, List.mem_cons]
      constructor
      · rintro (h | h)
        · exact Or.inl h
        · exact Or.inr (Or.inr h)
      · rintro (h | h | h)
        · exact Or.inl h
        · exact Or.inl (h ▸ hmem)
        · exact Or.inr h
    · rw [if_neg hmem, ih]
      simp only [List.mem_append, List.mem_singleton, List.map_cons, List.mem_cons]
      tauto

lemma mem_patientKeys (rows : List RecistMeta) (x : String) :
    x ∈ patientKeys rows ↔ x ∈ rows.map (fun r => r.patient_id) := by
  unfold patientKeys
  rw [patientKeys_loop_mem]
  simp

lemma map_patientId_presort (rows : List RecistMeta) :
    (((patientKeys rows).map
        (fun pid => seriesFor pid (rows.filter (fun r => decide (r.patient_id = pid))))).map
      (fun s => s.patientId)) = patientKeys rows := by
  generalize patientKeys rows = ks
  induction ks with
  | nil => rfl
  | cons k t ih => simp only [List.map_cons, seriesFor_patientId, ih]

/-- C7: the builder returns exactly one series per distinct patient identifier
(their list is duplicate-free and covers exactly the input identifiers),
sorted ascending by identifier; within each series the records are sorted
ascending by study date under string comparison, and for each study date the
records carrying that date appear exactly in their input order (stability of
the sort). -/
theorem groupByPatient_shape (rows : List RecistMeta) :
    List.Sorted (fun a b => a ≤ b) ((groupByPatient rows).map (fun s => s.patientId)) ∧
    ((groupByPatient rows).map (fun s => s.patientId)).Nodup ∧
    (∀ pid, pid ∈ (groupByPatient rows).map (fun s => s.patientId) ↔
      pid ∈ rows.map (fun r => r.patient_id)) ∧
    (groupByPatient rows).Forall (fun s =>
      List.Sorted dateLE (s.rows.map (fun row => row.toRecistMeta)) ∧
      ∀ d, (s.rows.map (fun row => row.toRecistMeta)).filter
            (fun r => decide (r.study_date = d))
        = (rows.filter (fun r => decide (r.patient_id = s.patientId))).filter
            (fun r => decide (r.study_date = d))) := by
  have hperm : (groupByPatient rows).Perm
      ((patientKeys rows).map
        (fun pid => seriesFor pid (rows.filter (fun r => decide (r.patient_id = pid))))) :=
    List.perm_insertionSort pidLE _
  refine ⟨?_, ?_, ?_, ?_⟩
  · exact List.pairwise_map.mpr (List.sorted_insertionSort pidLE _)
  · have h1 : (((patientKeys rows).map
        (fun pid => seriesFor pid (rows.filter (fun r => decide (r.patient_id = pid))))).map
          (fun s => s.patientId)).Nodup := by
      rw [map_patientId_presort]; exact patientKeys_nodup rows
    exact (hperm.map (fun s => s.patientId)).symm.nodup h1
  · intro pid
    rw [(hperm.map (fun s => s.patientId)).mem_iff, map_patientId_presort, mem_patientKeys]
  · rw [List.forall_iff_forall_mem]
    intro s hs
    obtain ⟨pid, hpid, rfl⟩ := mem_groupByPatient.mp hs
    rw [seriesFor_map_meta, seriesFor_patientId]
    constructor
    · exact List.sorted_insertionSort dateLE _
    · intro d
      refine filter_insertionSort dateLE _ ?_ _
      intro a b ha hb
      rw [decide_eq_true_eq] at ha hb
      show a.study_date ≤ b.study_date
      rw [ha, hb]

/-! Supporting lemmas about the lesion-row map. -/

lemma lookupRow_nil (k : String) : lookupRow [] k = none := rfl

lemma lookupRow_cons_pos (a : String × LesionRow) (m : List (String × LesionRow)) (k : String)
    (h : a.1 = k) : lookupRow (a :: m) k = some a.2 := by
  unfold lookupRow
  rw [List.find?_cons_of_pos _ (by simp [h])]
  rfl

lemma lookupRow_cons_neg (a : String × LesionRow) (m : List (String × LesionRow)) (k : String)
    (h : ¬ a.1 = k) : lookupRow (a :: m) k = lookupRow m k := by
  unfold lookupRow
  rw [List.find?_cons_of_neg _ (by simp [h])]

lemma lookupRow_append_single (m : List (String × LesionRow)) (a : String × LesionRow)
    (k : String) :
    lookupRow (m ++ [a]) k = (lookupRow m k).or (if k = a.1 then some a.2 else none) := by
  induction m with
  | nil =>
    rw [List.nil_append, lookupRow_nil, Option.none_or]
    by_cases h : a.1 = k
    · rw [lookupRow_cons_pos a [] k h, if_pos h.symm]
    · rw [lookupRow_cons_neg a [] k h, lookupRow_nil, if_neg (fun hh => h hh.symm)]
  | cons b t ih =>
    rw [List.cons_append]
    by_cases hb : b.1 = k
    · rw [lookupRow_cons_pos b _ k hb, lookupRow_cons_pos b t k hb, Option.or_some]
    · rw [lookupRow_cons_neg b _ k hb, lookupRow_cons_neg b t k hb, ih]

lemma lookupRow_mapUpdate (m : List (String × LesionRow)) (id : String)
    (f : LesionRow → LesionRow) (k : String) :
    lookupRow (m.map (fun kv => if kv.1 = id then (kv.1, f kv.2) else kv)) k
      = if k = id then (lookupRow m k).map f else lookupRow m k := by
  induction m with
  | nil =>
    rw [List.map_nil, lookupRow_nil]
    by_cases hk : k = id <;> simp [hk]
  | cons b t ih =>
    rw [List.map_cons]
    by_cases hb : b.1 = id
    · rw [if_pos hb]
      by_cases hk : b.1 = k
      · have hkid : k = id := hk ▸ hb
        rw [lookupRow_cons_pos (b.1, f b.2) _ k hk, lookupRow_cons_pos b t k hk, if_pos hkid]
        rfl
      · rw [lookupRow_cons_neg (b.1, f b.2) _ k hk, lookupRow_cons_neg b t k hk, ih]
    · rw [if_neg hb]
      by_cases hk : b.1 = k
      · have hkid : ¬ k = id := fun h => hb (hk.trans h)
        rw [lookupRow_cons_pos b _ k hk, lookupRow_cons_pos b t k hk, if_neg hkid]
      · rw [lookupRow_cons_neg b _ k hk, lookupRow_cons_neg b t k hk, ih]

lemma find?_isSome_eq_lookupRow (m : List (String × LesionRow)) (id : String) :
    (m.find? (fun kv => decide (kv.1 = id))).isSome = (lookupRow m id).isSome := by
  unfold lookupRow
  cases m.find? (fun kv => decide (kv.1 = id)) <;> rfl

/-- Characterization of one observation step: the entry of the observation's
key is created if needed and receives the cell writes; every other entry is
untouched. -/
lemma lookup_processLesion (i : ℕ) (d : String) (m : List (String × LesionRow)) (lsn : Lesion)
    (k : String) :
    lookupRow (processLesion i d m lsn) k
      = if k = lesionKey lsn then
          some (updateRow i d lsn ((lookupRow m k).getD
            (freshRow (lesionKey lsn) ("L" ++ toString (m.length + 1)) lsn)))
        else lookupRow m k := by
  unfold processLesion
  by_cases hc : (m.find? (fun kv => decide (kv.1 = lesionKey lsn))).isSome = true
  · rw [if_pos hc, lookupRow_mapUpdate]
    by_cases hk : k = lesionKey lsn
    · rw [if_pos hk, if_pos hk]
      have hsome : (lookupRow m k).isSome = true := by
        rw [hk, ← find?_isSome_eq_lookupRow]
        exact hc
      obtain ⟨row, hrow⟩ := Option.isSome_iff_exists.mp hsome
      rw [hrow]
      rfl
    · rw [if_neg hk, if_neg hk]
  · rw [if_neg hc, lookupRow_mapUpdate]
    by_cases hk : k = lesionKey lsn
    · rw [if_pos hk, if_pos hk, lookupRow_append_single]
      have hnone : lookupRow m k = none := by
        rw [hk, ← Option.not_isSome_iff_eq_none, ← find?_isSome_eq_lookupRow]
        exact hc
      rw [hnone, Option.none_or, if_pos hk]
      rfl
    · rw [if_neg hk, if_neg hk, lookupRow_append_single, if_neg hk, Option.or_none]

lemma updateRow_lesion (i : ℕ) (d : String) (lsn : Lesion) (row : LesionRow) :
    (updateRow i d lsn row).lesion = row.lesion := rfl

lemma map_fst_mapUpdate (m : List (String × LesionRow)) (id : String)
    (f : LesionRow → LesionRow) :
    (m.map (fun kv => if kv.1 = id then (kv.1, f kv.2) else kv)).map Prod.fst
      = m.map Prod.fst := by
  induction m with
  | nil => rfl
  | cons b t ih =>
    simp only [List.map_cons, ih]
    by_cases hb : b.1 = id <;> simp [hb]

lemma keys_processLesion (i : ℕ) (d : String) (m : List (String × LesionRow)) (lsn : Lesion) :
    (processLesion i d m lsn).map Prod.fst
      = if (lookupRow m (lesionKey lsn)).isSome = true then m.map Prod.fst
        else m.map Prod.fst ++ [lesionKey lsn] := by
  unfold processLesion
  rw [find?_isSome_eq_lookupRow]
  by_cases h : (lookupRow m (lesionKey lsn)).isSome = true
  · rw [if_pos h, if_pos h, map_fst_mapUpdate]
  · rw [if_neg h, if_neg h, map_fst_mapUpdate]
    simp

lemma lookupRow_isSome_iff (m : List (String × LesionRow)) (k : String) :
    (lookupRow m k).isSome = true ↔ k ∈ m.map Prod.fst := by
  induction m with
  | nil => simp [lookupRow_nil]
  | cons b t ih =>
    by_cases hb : b.1 = k
    · rw [lookupRow_cons_pos b t k hb]
      simp [hb]
    · rw [lookupRow_cons_neg b t k hb]
      simp only [List.map_cons, List.mem_cons, ih]
      constructor
      · exact Or.inr
      · rintro (h | h)
        · exact absurd h.symm hb
        · exact h

lemma keys_nodup_foldl (l : List (ℕ × String × Lesion)) :
    ∀ m : List (String × LesionRow), (m.map Prod.fst).Nodup →
      ((l.foldl stepObs m).map Prod.fst).Nodup := by
  induction l with
  | nil => intro m h; exact h
  | cons o t ih =>
    intro m h
    rw [List.foldl_cons]
    refine ih _ ?_
    show ((processLesion o.1 o.2.1 m o.2.2).map Prod.fst).Nodup
    rw [keys_processLesion]
    by_cases hc : (lookupRow m (lesionKey o.2.2)).isSome = true
    · rw [if_pos hc]; exact h
    · rw [if_neg hc]
      have hnm : lesionKey o.2.2 ∉ m.map Prod.fst := fun hmem =>
        hc ((lookupRow_isSome_iff m _).mpr hmem)
      simp [List.nodup_append, h, hnm]

lemma lookupRow_of_mem (m : List (String × LesionRow)) (hn : (m.map Prod.fst).Nodup)
    (kv : String × LesionRow) (hmem : kv ∈ m) : lookupRow m kv.1 = some kv.2 := by
  induction m with
  | nil => cases hmem
  | cons b t ih =>
    rw [List.map_cons, List.nodup_cons] at hn
    rcases List.mem_cons.mp hmem with rfl | hmem'
    · exact lookupRow_cons_pos _ _ _ rfl
    · have hb : ¬ b.1 = kv.1 := by
        intro he
        exact hn.1 (he ▸ List.mem_map.mpr ⟨kv, hmem', rfl⟩)
      rw [lookupRow_cons_neg b t kv.1 hb]
      exact ih hn.2 hmem'

lemma foldl_flatMap {α β γ : Type*} (L : List α) (f : α → List β) (g : γ → β → γ) :
    ∀ init : γ, (L.flatMap f).foldl g init = L.foldl (fun acc a => (f a).foldl g acc) init := by
  induction L with
  | nil => intro init; rfl
  | cons a t ih => intro init; rw [List.flatMap_cons, List.foldl_append, List.foldl_cons, ih]

/-- The nested `forEach` loops of `buildLesionMatrix` are the fold of
`processLesion` over the flattened observation stream. -/
lemma buildLesionMatrix_rows (s : PatientSeries) :
    (buildLesionMatrix s).2
      = List.insertionSort rowLE (((obsOf s).foldl stepObs []).map Prod.snd) := by
  have h1 : (obsOf s).foldl stepObs []
      = s.rows.enum.foldl
          (fun acc p => (p.2.lesions.getD []).foldl (processLesion p.1 p.2.study_date) acc)
          [] := by
    unfold obsOf
    rw [foldl_flatMap]
    refine congrArg (fun f => List.foldl f ([] : List (String × LesionRow)) s.rows.enum) ?_
    funext acc p
    rw [List.foldl_map]
    rfl
  show List.insertionSort rowLE
      ((s.rows.enum.foldl
          (fun acc p => (p.2.lesions.getD []).foldl (processLesion p.1 p.2.study_date) acc)
          []).map Prod.snd)
    = _
  rw [h1]

/-- Identity data of the row under a key after a run of observations: it is
either what the starting map already had, or the identity registered at the
first observation carrying that key. -/
lemma lookup_foldl_lesion (l : List (ℕ × String × Lesion)) :
    ∀ (m : List (String × LesionRow)) (k : String),
      (lookupRow (l.foldl stepObs m) k).map
          (fun r => (r.lesion.id, r.lesion.organ, r.lesion.rule, r.lesion.target))
        = ((lookupRow m k).map
            (fun r => (r.lesion.id, r.lesion.organ, r.lesion.rule, r.lesion.target))).or
          ((l.find? (fun o => decide (lesionKey o.2.2 = k))).map
            (fun o => (k, o.2.2.organ, o.2.2.rule, o.2.2.target))) := by
  induction l with
  | nil =>
    intro m k
    rw [List.foldl_nil, List.find?_nil]
    simp [Option.or_none]
  | cons o t ih =>
    intro m k
    rw [List.foldl_cons, ih]
    by_cases hk : lesionKey o.2.2 = k
    · rw [List.find?_cons_of_pos _ (by simp [hk])]
      cases hm : lookupRow m k with
      | none =>
        have hstep : lookupRow (stepObs m o) k
            = some (updateRow o.1 o.2.1 o.2.2
                (freshRow (lesionKey o.2.2) ("L" ++ toString (m.length + 1)) o.2.2)) := by
          show lookupRow (processLesion o.1 o.2.1 m o.2.2) k = _
          rw [lookup_processLesion, if_pos hk.symm, hm, Option.getD_none]
        rw [hstep]
        simp [updateRow, freshRow, hk, Option.or_some]
      | some row =>
        have hstep : lookupRow (stepObs m o) k = some (updateRow o.1 o.2.1 o.2.2 row) := by
          show lookupRow (processLesion o.1 o.2.1 m o.2.2) k = _
          rw [lookup_processLesion, if_pos hk.symm, hm, Option.getD_some]
        rw [hstep]
        simp [updateRow_lesion, Option.or_some, Option.map_some']
    · rw [List.find?_cons_of_neg _ (by simp [hk])]
      have hstep : lookupRow (stepObs m o) k = lookupRow m k := by
        show lookupRow (processLesion o.1 o.2.1 m o.2.2) k = _
        rw [lookup_processLesion, if_neg (fun h => hk h.symm)]
      rw [hstep]

/-- A row found in the final map is found under its own identity key. -/
lemma matrix_row_entry (s : PatientSeries) (row : LesionRow)
    (hrow : row ∈ (buildLesionMatrix s).2) :
    lookupRow ((obsOf s).foldl stepObs []) row.lesion.id = some row := by
  rw [buildLesionMatrix_rows, (List.perm_insertionSort rowLE _).mem_iff] at hrow
  obtain ⟨kv, hkv, hsnd⟩ := List.mem_map.mp hrow
  have hnodup := keys_nodup_foldl (obsOf s) [] (by simp)
  have hlk := lookupRow_of_mem _ hnodup kv hkv
  have hid := lookup_foldl_lesion (obsOf s) [] kv.1
  rw [hlk, lookupRow_nil] at hid
  simp only [Option.map_some', Option.map_none', Option.none_or] at hid
  cases hf : (obsOf s).find? (fun o => decide (lesionKey o.2.2 = kv.1)) with
  | none => rw [hf] at hid; simp at hid
  | some o =>
    rw [hf] at hid
    simp only [Option.map_some', Option.some.injEq] at hid
    have hidkey : kv.2.lesion.id = kv.1 := (Prod.ext_iff.mp hid).1
    rw [← hsnd, hidkey]
    exact hlk

/-- Contribution cell of the row under a key after a run of observations: the
last observation with that key and date determines it (`sldCell`); with no
such observation it is the starting map's cell, and `none` for a row only
created during the run. -/
lemma lookup_foldl_sld (l : List (ℕ × String × Lesion)) :
    ∀ (m : List (String × LesionRow)) (k d : String),
      (lookupRow (l.foldl stepObs m) k).map (fun r => r.sldByDate d)
        = ((l.filter (fun o => decide (lesionKey o.2.2 = k ∧ o.2.1 = d))).getLast?).elim
            (((lookupRow m k).map (fun r => r.sldByDate d)).or
              ((l.find? (fun o => decide (lesionKey o.2.2 = k))).map (fun _ => none)))
            (fun o => some (sldCell o.1 o.2.2)) := by
  induction l with
  | nil =>
    intro m k d
    rw [List.foldl_nil, List.find?_nil, List.filter_nil]
    simp [Option.or_none]
  | cons o t ih =>
    intro m k d
    rw [List.foldl_cons, ih]
    by_cases hk : lesionKey o.2.2 = k
    · by_cases hd : o.2.1 = d
      · rw [List.filter_cons, if_pos (by simp [hk, hd])]
        cases hft : t.filter (fun o => decide (lesionKey o.2.2 = k ∧ o.2.1 = d)) with
        | nil =>
          simp only [List.getLast?_nil, List.getLast?_singleton, Option.elim]
          cases hm : lookupRow m k with
          | none =>
            have hstep := lookup_processLesion o.1 o.2.1 m o.2.2 k
            rw [if_pos hk.symm, hm, Option.getD_none] at hstep
            have hstep' : lookupRow (stepObs m o) k = some (updateRow o.1 o.2.1 o.2.2
                (freshRow (lesionKey o.2.2) ("L" ++ toString (m.length + 1)) o.2.2)) := hstep
            rw [hstep']
            simp [updateRow, hd, Option.or_some, Option.map_some']
          | some row =>
            have hstep := lookup_processLesion o.1 o.2.1 m o.2.2 k
            rw [if_pos hk.symm, hm, Option.getD_some] at hstep
            have hstep' : lookupRow (stepObs m o) k
                = some (updateRow o.1 o.2.1 o.2.2 row) := hstep
            rw [hstep']
            simp [updateRow, hd, Option.or_some, Option.map_some']
        | cons x xs =>
          obtain ⟨y, hy⟩ : ∃ y, (x :: xs).getLast? = some y := by
            cases hxy : (x :: xs).getLast? with
            | none => exact absurd (List.getLast?_eq_none_iff.mp hxy) (by simp)
            | some y => exact ⟨y, rfl⟩
          rw [List.getLast?_cons_cons, hy]
          rfl
      · rw [List.filter_cons, if_neg (by simp [hd]),
          List.find?_cons_of_pos _ (by simp [hk])]
        cases hft : t.filter (fun o => decide (lesionKey o.2.2 = k ∧ o.2.1 = d)) with
        | cons x xs =>
          obtain ⟨y, hy⟩ : ∃ y, (x :: xs).getLast? = some y := by
            cases hxy : (x :: xs).getLast? with
            | none => exact absurd (List.getLast?_eq_none_iff.mp hxy) (by simp)
            | some y => exact ⟨y, rfl⟩
          rw [hy]
          rfl
        | nil =>
          simp only [List.getLast?_nil, Option.elim]
          have hcond : ¬ d = o.2.1 := fun h => hd h.symm
          cases hm : lookupRow m k with
          | none =>
            have hstep := lookup_processLesion o.1 o.2.1 m o.2.2 k
            rw [if_pos hk.symm, hm, Option.getD_none] at hstep
            have hstep' : lookupRow (stepObs m o) k = some (updateRow o.1 o.2.1 o.2.2
                (freshRow (lesionKey o.2.2) ("L" ++ toString (m.length + 1)) o.2.2)) := hstep
            rw [hstep']
            simp [updateRow, freshRow, hcond, Option.or_some, Option.map_some',
              Option.map_none', Option.none_or]
          | some row =>
            have hstep := lookup_processLesion o.1 o.2.1 m o.2.2 k
            rw [if_pos hk.symm, hm, Option.getD_some] at hstep
            have hstep' : lookupRow (stepObs m o) k
                = some (updateRow o.1 o.2.1 o.2.2 row) := hstep
            rw [hstep']
            simp [updateRow, hcond, Option.or_some, Option.map_some']
    · rw [List.filter_cons, if_neg (by simp [hk]),
        List.find?_cons_of_neg _ (by simp [hk])]
      have hstep : lookupRow (stepObs m o) k = lookupRow m k := by
        show lookupRow (processLesion o.1 o.2.1 m o.2.2) k = _
        rw [lookup_processLesion, if_neg (fun h => hk h.symm)]
      rw [hstep]

/-- C2 counterexample: lesion `"x"` appears non-target at timepoint 0 and
target-flagged at timepoint 1, yet its produced row carries flag `false` —
the row keeps the flag of the first sighting, not "true if set at any
timepoint". -/
theorem lesion_target_any_timepoint_ctrex :
    (matrixFor "P1" [flagR0, flagR1]).2.map (fun r => (r.lesion.id, r.lesion.target))
      = [("x", false)] ∧
    (obsOf (seriesFor "P1"
        ([flagR0, flagR1].filter (fun r => decide (r.patient_id = "P1"))))).map
        (fun o => (lesionKey o.2.2, o.2.2.target))
      = [("x", false), ("x", true)] := by
  constructor
  · decide
  · decide

/-- C2 (amended): each produced `LesionRow`'s aggregate-contributing flag
equals the flag carried by the lesion's first sighting — the first observation
with that identity key in processing order — not the disjunction over all
timepoints. -/
theorem lesion_target_first_sighting (s : PatientSeries) :
    (buildLesionMatrix s).2.Forall (fun row =>
      ((obsOf s).find? (fun o => decide (lesionKey o.2.2 = row.lesion.id))).map
          (fun o => o.2.2.target)
        = some row.lesion.target) := by
  rw [List.forall_iff_forall_mem]
  intro row hrow
  have hlk := matrix_row_entry s row hrow
  have hinfo := lookup_foldl_lesion (obsOf s) [] row.lesion.id
  rw [hlk, lookupRow_nil] at hinfo
  simp only [Option.map_some', Option.map_none', Option.none_or] at hinfo
  cases hf : (obsOf s).find? (fun o => decide (lesionKey o.2.2 = row.lesion.id)) with
  | none => rw [hf] at hinfo; simp at hinfo
  | some o =>
    rw [hf] at hinfo
    simp only [Option.map_some', Option.some.injEq, Prod.mk.injEq] at hinfo
    obtain ⟨-, -, -, ht⟩ := hinfo
    simp [ht]

/-- C3 counterexample: a lesion whose aggregate-contributing flag is set but
whose baseline measurement is absent gets an absent contribution cell at the
baseline date, refuting "present if and only if the flag is set". -/
theorem sld_cell_flag_set_absent_ctrex :
    (matrixFor "P1" [missR0]).2.map (fun r => (r.lesion.target, r.sldByDate "2024-01-01"))
      = [(true, none)] := by decide

/-- C3 (amended): for every produced row and date, the contribution cell
equals the value of the last observation of that row's key at that date —
`sldCell`, which is the baseline measurement at timepoint index 0, else the
follow-up measurement, when the flag is set, and `none` when the flag is
unset — and is absent (`none`, never `0`) when no such observation exists;
a set flag with an absent measurement also leaves the cell `none`. -/
theorem sld_cell_last_write (s : PatientSeries) (d : String) :
    (buildLesionMatrix s).2.Forall (fun row =>
      row.sldByDate d
        = (((obsOf s).filter
              (fun o => decide (lesionKey o.2.2 = row.lesion.id ∧ o.2.1 = d))).getLast?).elim
            none (fun o => sldCell o.1 o.2.2)) := by
  rw [List.forall_iff_forall_mem]
  intro row hrow
  have hlk := matrix_row_entry s row hrow
  have hcell := lookup_foldl_sld (obsOf s) [] row.lesion.id d
  rw [hlk, lookupRow_nil] at hcell
  simp only [Option.map_some', Option.map_none', Option.none_or] at hcell
  cases hlast : ((obsOf s).filter
      (fun o => decide (lesionKey o.2.2 = row.lesion.id ∧ o.2.1 = d))).getLast? with
  | some w =>
    rw [hlast] at hcell
    simp only [Option.elim, Option.some.injEq] at hcell
    exact hcell
  | none =>
    rw [hlast] at hcell
    simp only [Option.elim] at hcell
    show row.sldByDate d = none
    cases hf : (obsOf s).find? (fun o => decide (lesionKey o.2.2 = row.lesion.id)) with
    | none => rw [hf] at hcell; simp at hcell
    | some o =>
      rw [hf] at hcell
      simp only [Option.map_some', Option.some.injEq] at hcell
      simpa using hcell

/-- C8 counterexample: two identifier-less lesions whose tag/site/station
fields differ (`organ "a:b"`/station `"c"` against `organ "a"`/station
`"b:c"`) concatenate to the same fallback key, so they merge into a single
row — refuting "the same row exactly when the three fields are equal". -/
theorem fallback_key_collision_ctrex :
    lesionKey colA = lesionKey colB ∧ colA.organ ≠ colB.organ ∧
    stationOrLocation colA ≠ stationOrLocation colB ∧
    (matrixFor "P1" [colR0, colR1]).2.length = 1 := by decide

/-- C8 (amended): an observation with a non-empty explicit identifier is keyed
by that identifier alone, regardless of its other fields; identifier-less
observations (absent or empty `lesion_id`) share a row exactly when their
concatenated fallback keys `kind ++ ":" ++ organ ++ ":" ++ stationOrLocation`
are equal — equality of the three fields is sufficient for that, but not
necessary, because the separator may occur inside the fields. -/
theorem lesion_identity_keys :
    (∀ a b : Lesion, ∀ idv : String, idv ≠ "" → a.lesion_id = some idv →
      b.lesion_id = some idv → lesionKey a = lesionKey b) ∧
    (∀ a b : Lesion,
      (a.lesion_id = none ∨ a.lesion_id = some "") →
      (b.lesion_id = none ∨ b.lesion_id = some "") →
      (lesionKey a = lesionKey b ↔ fallbackKey a = fallbackKey b)) ∧
    (∀ a b : Lesion, a.kind = b.kind → a.organ = b.organ →
      stationOrLocation a = stationOrLocation b → fallbackKey a = fallbackKey b) := by
  refine ⟨?_, ?_, ?_⟩
  · intro a b idv hne ha hb
    unfold lesionKey
    rw [ha, hb]
    simp [hne]
  · intro a b ha hb
    have ka : lesionKey a = fallbackKey a := by
      rcases ha with h | h <;> simp [lesionKey, h]
    have kb : lesionKey b = fallbackKey b := by
      rcases hb with h | h <;> simp [lesionKey, h]
    rw [ka, kb]
  · intro a b h1 h2 h3
    unfold fallbackKey
    rw [h1, h2, h3]

/-- Witness for `lesion_identity_keys`: the two observations sharing
identifier `"L-LIV-1"` but disagreeing on every other field get the same
identity key. -/
theorem lesion_identity_keys_witness : lesionKey sameIdA = lesionKey sameIdB :=
  lesion_identity_keys.1 sameIdA sameIdB "L-LIV-1" (by decide) (by decide) (by decide)

/-- C9 counterexample: two same-patient records with the same study date keep
their input order through the stable sort, so swapping the two input lines
swaps the first-seen label assignment of lesions `"x"` and `"y"` — the set of
produced rows (including labels) is not permutation-invariant. -/
theorem lesion_rows_permutation_ctrex :
    [dupB, dupA].Perm [dupA, dupB] ∧
    (matrixFor "P1" [dupA, dupB]).2.map (fun r => (r.lesion.id, r.lesion.label))
      = [("x", "L1"), ("y", "L2")] ∧
    (matrixFor "P1" [dupB, dupA]).2.map (fun r => (r.lesion.id, r.lesion.label))
      = [("y", "L1"), ("x", "L2")] := by
  refine ⟨by decide, by decide, by decide⟩

lemma pairwise_dateLT_of_sorted_nodup (l : List RecistMeta)
    (hs : List.Sorted dateLE l) (hn : (l.map (fun r => r.study_date)).Nodup) :
    l.Pairwise dateLT := by
  have hne : l.Pairwise (fun a b => a.study_date ≠ b.study_date) := List.pairwise_map.mp hn
  have hle : l.Pairwise dateLE := hs
  exact (hle.and hne).imp (fun h => lt_of_le_of_ne h.1 h.2)

/-- C9 (amended): when a patient's records carry pairwise-distinct study
dates, building the series and then the lesion matrix for that patient is
invariant under any permutation of the input lines; with duplicated dates the
stable sort preserves input order between them and labels may differ (see
the counterexample). -/
theorem lesion_rows_permutation_invariant (rows rows' : List RecistMeta) (pid : String)
    (hperm : rows'.Perm rows)
    (hnd : ((rows.filter (fun r => decide (r.patient_id = pid))).map
        (fun r => r.study_date)).Nodup) :
    seriesFor pid (rows'.filter (fun r => decide (r.patient_id = pid)))
      = seriesFor pid (rows.filter (fun r => decide (r.patient_id = pid))) ∧
    matrixFor pid rows' = matrixFor pid rows := by
  have hpf : (rows'.filter (fun r => decide (r.patient_id = pid))).Perm
      (rows.filter (fun r => decide (r.patient_id = pid))) := hperm.filter _
  have hnd' : ((rows'.filter (fun r => decide (r.patient_id = pid))).map
      (fun r => r.study_date)).Nodup := ((hpf.map _).symm).nodup hnd
  have hndSorted : ∀ (l : List RecistMeta), (l.map (fun r => r.study_date)).Nodup →
      ((List.insertionSort dateLE l).map (fun r => r.study_date)).Nodup := fun l h =>
    (((List.perm_insertionSort dateLE l).map _).symm).nodup h
  have hsort_eq : List.insertionSort dateLE
        (rows'.filter (fun r => decide (r.patient_id = pid)))
      = List.insertionSort dateLE (rows.filter (fun r => decide (r.patient_id = pid))) := by
    refine @List.eq_of_perm_of_sorted RecistMeta dateLT _ _ _ ?_ ?_ ?_
    · exact (List.perm_insertionSort dateLE _).trans
        (hpf.trans (List.perm_insertionSort dateLE _).symm)
    · exact pairwise_dateLT_of_sorted_nodup _ (List.sorted_insertionSort dateLE _)
        (hndSorted _ hnd')
    · exact pairwise_dateLT_of_sorted_nodup _ (List.sorted_insertionSort dateLE _)
        (hndSorted _ hnd)
  constructor
  · unfold seriesFor
    rw [hsort_eq]
  · unfold matrixFor seriesFor
    rw [hsort_eq]

/-- Witness for `lesion_rows_permutation_invariant`: the two distinct-date
records can be swapped without changing the produced matrix. -/
theorem lesion_rows_permutation_invariant_witness :
    [ordB, ordA].Perm [ordA, ordB] ∧
    (([ordA, ordB].filter (fun r => decide (r.patient_id = "P1"))).map
        (fun r => r.study_date)).Nodup ∧
    matrixFor "P1" [ordB, ordA] = matrixFor "P1" [ordA, ordB] :=
  ⟨by decide, by decide,
    (lesion_rows_permutation_invariant [ordA, ordB] [ordB, ordA] "P1" (by decide)
      (by decide)).2⟩

end Tumor
